import Mathlib

/-!
Verification of the process-supervisor component of `program-tray`
(`src/launcher.rs`, with the command descriptor from `src/config.rs`).

The Rust code is shallowly embedded: every effectful OS operation
(spawning, writing to stdin, waiting, reading a stream, running the
interrupt-sending command) is parameterised by an explicit world/trace
value describing the outcome the OS would report, and the functions
below compute exactly what the Rust control flow does with those
outcomes.  The shared child slot (`Arc<Mutex<Option<Child>>>`) is
modelled as an explicit `Option Child` value threaded through the
operations.
-/

namespace ProgramTray

/-- `SUDO_COMMAND` from `launcher.rs`: the privilege-elevation helper. -/
def SUDO_COMMAND : String := "pkexec"

/-! ### Shell-word splitting (the `shlex::split` dependency)

`Launcher::start` parses the command line with `shlex::split`, which
returns `None` when the input has a parse error (unterminated quote or
a trailing backslash) and `Some words` otherwise.  The state machine
below embeds that splitter: whitespace separates words, an unquoted
`#` at a word boundary starts a comment running to the end of the line
(skipped in the crate's initial whitespace loop; inside a word `#` is
an ordinary character), single quotes are literal, double quotes allow
the escapes `\$ \` \" \\` and drop a backslash-newline, and a
backslash outside quotes escapes the next character (dropping a
newline). -/

/-- The single-quote character. -/
def squote : Char := Char.ofNat 39

/-- The backslash character. -/
def bslash : Char := Char.ofNat 92

/-- Word-separating whitespace recognised by the splitter. -/
def isShWs (c : Char) : Bool := c = ' ' || c = Char.ofNat 9 || c = Char.ofNat 10

/-- States of the shell-word splitting state machine (`comment` is the
skip-to-end-of-line state entered by an unquoted `#` between words). -/
inductive ShState
  | delim
  | comment
  | word
  | wordEsc
  | single
  | double
  | doubleEsc
deriving DecidableEq, Repr

/-- One pass of the shell-word splitter over the remaining characters.
`cur` is the current word accumulated in reverse; `acc` holds the
completed words in reverse order.  Returns `none` on a parse error
(input ends inside a quote or right after a backslash). -/
def shAux : List Char → ShState → List Char → List String → Option (List String)
  | [], .delim, _, acc => some acc.reverse
  | [], .comment, _, acc => some acc.reverse
  | [], .word, cur, acc => some ((String.mk cur.reverse) :: acc).reverse
  | [], .wordEsc, _, _ => none
  | [], .single, _, _ => none
  | [], .double, _, _ => none
  | [], .doubleEsc, _, _ => none
  | c :: rest, .delim, _, acc =>
    if isShWs c then shAux rest .delim [] acc
    else if c = '#' then shAux rest .comment [] acc
    else if c = squote then shAux rest .single [] acc
    else if c = '"' then shAux rest .double [] acc
    else if c = bslash then shAux rest .wordEsc [] acc
    else shAux rest .word [c] acc
  | c :: rest, .comment, _, acc =>
    if c = Char.ofNat 10 then shAux rest .delim [] acc
    else shAux rest .comment [] acc
  | c :: rest, .word, cur, acc =>
    if isShWs c then shAux rest .delim [] ((String.mk cur.reverse) :: acc)
    else if c = squote then shAux rest .single cur acc
    else if c = '"' then shAux rest .double cur acc
    else if c = bslash then shAux rest .wordEsc cur acc
    else shAux rest .word (c :: cur) acc
  | c :: rest, .wordEsc, cur, acc =>
    if c = Char.ofNat 10 then shAux rest .word cur acc
    else shAux rest .word (c :: cur) acc
  | c :: rest, .single, cur, acc =>
    if c = squote then shAux rest .word cur acc
    else shAux rest .single (c :: cur) acc
  | c :: rest, .double, cur, acc =>
    if c = '"' then shAux rest .word cur acc
    else if c = bslash then shAux rest .doubleEsc cur acc
    else shAux rest .double (c :: cur) acc
  | c :: rest, .doubleEsc, cur, acc =>
    if c = '$' || c = Char.ofNat 96 || c = '"' || c = bslash then
      shAux rest .double (c :: cur) acc
    else if c = Char.ofNat 10 then shAux rest .double cur acc
    else shAux rest .double (c :: bslash :: cur) acc

/-- `shlex::split`: shell-word split a command line; `none` on a parse
error. -/
def shlexSplit (s : String) : Option (List String) :=
  shAux s.data .delim [] []

/-! ### Command descriptor (`config.rs::Program`)

The TOML-derived `Program` struct.  `HashMap` fields are modelled as
association lists (the spec notes insertion order is irrelevant; only
lookup is used). -/

/-- The dollar character starting a placeholder. -/
def dollar : Char := '$'

/-- A regex `\w` word character (modelled as ASCII alphanumeric or
underscore, the alphabet exercised by the configuration format). -/
def isWordChar (c : Char) : Bool := c.isAlphanum || c = '_'

/-- First-match lookup in the substitution map. -/
def lookupArg (args : List (String × String)) (name : String) : Option String :=
  (args.find? (fun kv => kv.1 = name)).map (fun kv => kv.2)

/-- Emit the replacement for a finished placeholder whose name was
accumulated in reverse in `nameRev`; an empty name means the `$` was
not followed by a word character, so it is kept verbatim. -/
def replaceArgsFlush (args : List (String × String)) (nameRev : List Char) : List Char :=
  if nameRev.isEmpty then [dollar]
  else
    match lookupArg args (String.mk nameRev.reverse) with
    | some v => v.data
    | none => dollar :: nameRev.reverse

/-- Placeholder substitution pass for `replace_args` (the regex
`\$(\w+)` replaced via the map).  The second argument is `none` in
plain text and `some nameRev` while scanning a placeholder name. -/
def replaceArgsGo (args : List (String × String)) :
    List Char → Option (List Char) → List Char
  | [], none => []
  | [], some nameRev => replaceArgsFlush args nameRev
  | c :: rest, none =>
    if c = dollar then replaceArgsGo args rest (some [])
    else c :: replaceArgsGo args rest none
  | c :: rest, some nameRev =>
    if isWordChar c then replaceArgsGo args rest (some (c :: nameRev))
    else if c = dollar then
      replaceArgsFlush args nameRev ++ replaceArgsGo args rest (some [])
    else
      replaceArgsFlush args nameRev ++ c :: replaceArgsGo args rest none

/-- `config.rs::replace_args`: substitute `$name` placeholders from the
`args` map, leaving unknown placeholders unchanged. -/
def replace_args (s : String) (args : List (String × String)) : String :=
  String.mk (replaceArgsGo args s.data none)

/-- `config.rs::Program`: the command descriptor parsed from the TOML
configuration file (UI-only fields omitted; no claim mentions them). -/
structure Program where
  id : String
  command : String
  superuser : Bool
  input : Option String
  args : List (String × String)
  env : List (String × String)
deriving DecidableEq, Repr

/-- `Program::get_command`: the command line with placeholders
substituted. -/
def Program.get_command (p : Program) : String :=
  replace_args p.command p.args

/-- `Program::need_superuser`: the descriptor's elevation flag. -/
def Program.need_superuser (p : Program) : Bool :=
  p.superuser

/-- `Program::get_input`: the stdin payload with placeholders
substituted. -/
def Program.get_input (p : Program) : Option String :=
  p.input.map (fun s => replace_args s p.args)

/-- `Program::get_env`: the environment-variable mapping. -/
def Program.get_env (p : Program) : List (String × String) :=
  p.env

/-! ### The launcher (`launcher.rs::Launcher`) and its `start` path

`Child` records what `Command::new(program).args(args).envs(env)`
spawned together with the OS pid; the shared slot
`Arc<Mutex<Option<Child>>>` is an explicit `Option Child`.  The
outcomes of the OS calls made by `start` (`spawn`, `write_all` to the
child's stdin) are supplied by a `StartWorld`. -/

/-- An OS-level invocation: program, argument list and the extra
environment passed via `.envs(..)`. -/
structure SpawnCall where
  program : String
  args : List String
  env : List (String × String)
deriving DecidableEq, Repr

/-- A live child process handle as kept in the shared slot. -/
structure Child where
  call : SpawnCall
  pid : Nat
deriving DecidableEq, Repr

/-- The launcher's configuration fields (`Launcher` struct without the
shared slot and the two handler cells, which are modelled explicitly
where used). -/
structure Launcher where
  command : String
  superuser : Bool
  input : Option String
  env : List (String × String)
deriving DecidableEq, Repr

/-- `Launcher::new`: builds a launcher from a command descriptor.  The
source hardcodes `superuser: true` and does not consult
`program.need_superuser()`. -/
def Launcher.new (p : Program) : Launcher :=
  { command := p.get_command
    superuser := true
    input := p.get_input
    env := p.get_env }

/-- `launcher.rs::is_running`: whether the shared slot holds a child. -/
def is_running (slot : Option Child) : Bool :=
  match slot with
  | none => false
  | some _ => true

/-- Outcomes of the OS calls performed by `start`. -/
structure StartWorld where
  spawnOk : Bool
  stdinWriteOk : Bool
  pid : Nat
deriving DecidableEq, Repr

/-- The error values `start` can return (the source returns
`io::Error`s with these meanings: "Already started", "Empty command
string", the spawn error, and the spec's `StdinWriteFailed`, which the
source never constructs). -/
inductive StartError
  | alreadyRunning
  | emptyCommand
  | spawnFailed
  | stdinWriteFailed
deriving DecidableEq, Repr

/-- How a call to `start` ends: a returned `Ok`, a returned `Err`, or a
panic of the calling thread (`expect`). -/
inductive StartOutcome
  | ok
  | error (e : StartError)
  | panic (msg : String)
deriving DecidableEq, Repr

/-- Result of a `start` call: how it returned, the shared slot
afterwards, and every spawn the OS was asked to perform. -/
structure StartResult where
  outcome : StartOutcome
  slot : Option Child
  spawns : List SpawnCall
deriving DecidableEq, Repr

/-- `Launcher::start`, embedded from the source:
fails if the slot is occupied; splits the command with `shlex::split`,
falling back to the raw command string as a single token when splitting
fails; fails on zero tokens; chooses `(SUDO_COMMAND, all tokens)` under
`superuser` and `(first token, remaining tokens)` otherwise; spawns;
writes the configured stdin payload with
`.expect("Failed to write to stdin")` (a panic on failure); finally
installs the child into the slot. -/
def start (l : Launcher) (slot : Option Child) (w : StartWorld) : StartResult :=
  if is_running slot then
    { outcome := .error .alreadyRunning, slot := slot, spawns := [] }
  else
    match (shlexSplit l.command).getD [l.command] with
    | [] =>
      { outcome := .error .emptyCommand, slot := slot, spawns := [] }
    | p0 :: restParts =>
      let pa : String × List String :=
        match l.superuser with
        | true => (SUDO_COMMAND, p0 :: restParts)
        | false => (p0, restParts)
      let call : SpawnCall := { program := pa.1, args := pa.2, env := l.env }
      if w.spawnOk then
        let child : Child := { call := call, pid := w.pid }
        match l.input with
        | some _ =>
          if w.stdinWriteOk then
            { outcome := .ok, slot := some child, spawns := [call] }
          else
            { outcome := .panic "Failed to write to stdin"
              slot := slot
              spawns := [call] }
        | none =>
          { outcome := .ok, slot := some child, spawns := [call] }
      else
        { outcome := .error .spawnFailed, slot := slot, spawns := [call] }

/-! ### The `stop` path and the termination primitive

`stop` runs an external interrupt-sending command (`pkexec kill -INT
pid` or `kill -INT pid`), inspects its exit status, and in the
synchronous case blocks on `child.wait()` and clears the slot.  The OS
outcomes are supplied by a `StopWorld`: whether the kill command could
be run at all, its exit code (`none` models a signal-killed kill
command, Rust's `status.code() == None`), and whether the final
`child.wait()` succeeds. -/

/-- An invocation of the external interrupt-sending command. -/
structure KillCall where
  program : String
  args : List String
deriving DecidableEq, Repr

/-- Outcomes of the OS calls performed by `stop`. -/
structure StopWorld where
  killRunOk : Bool
  killExitCode : Option Int
  waitOk : Bool
deriving DecidableEq, Repr

/-- The error values `stop` can return: the io error from running the
kill command (`status()?`), `TerminationFailed` carrying the kill
command's non-zero exit code (`none` when it was signal-killed), and
the error from the final blocking `child.wait()`. -/
inductive StopError
  | killRunFailed
  | terminationFailed (code : Option Int)
  | waitFailed
deriving DecidableEq, Repr

/-- Result of a `stop` call: the returned value, the shared slot
afterwards, and every kill command the OS was asked to run. -/
structure StopResult where
  result : Except StopError Unit
  slot : Option Child
  kills : List KillCall
deriving Repr

/-- `launcher.rs::stop`, embedded from the source: a no-op success if
nothing is running; otherwise runs the interrupt-sending command
(through the elevation helper when `isSuperuser`), treats exit code 0
as success and anything else as an error, then — synchronously only —
blocks on `child.wait()` and clears the slot. -/
def stop (slot : Option Child) (isSuperuser isAsync : Bool) (w : StopWorld) :
    StopResult :=
  match slot with
  | none => { result := .ok (), slot := none, kills := [] }
  | some child =>
    let kc : KillCall :=
      if isSuperuser then
        { program := SUDO_COMMAND, args := ["kill", "-INT", toString child.pid] }
      else
        { program := "kill", args := ["-INT", toString child.pid] }
    if w.killRunOk then
      match w.killExitCode with
      | some 0 =>
        if isAsync then
          { result := .ok (), slot := some child, kills := [kc] }
        else if w.waitOk then
          { result := .ok (), slot := none, kills := [kc] }
        else
          { result := .error .waitFailed, slot := some child, kills := [kc] }
      | some code =>
        { result := .error (.terminationFailed (some code))
          slot := some child
          kills := [kc] }
      | none =>
        { result := .error (.terminationFailed none)
          slot := some child
          kills := [kc] }
    else
      { result := .error .killRunFailed, slot := some child, kills := [kc] }

/-! ### Permissive UTF-8 decoding (`String::from_utf8_lossy`)

The stream reader decodes each chunk with `String::from_utf8_lossy`,
which replaces every maximal invalid subsequence with U+FFFD and never
fails.  The decoder below embeds that: `utf8Step` consumes one encoded
scalar (or one invalid maximal subpart) from the byte list and emits
one character; the driver runs it with fuel equal to the byte count,
which suffices because each step consumes at least one byte. -/

/-- The replacement character U+FFFD. -/
def replCh : Char := Char.ofNat 0xFFFD

/-- A UTF-8 continuation byte (`0x80..=0xBF`). -/
def isCont (b : Nat) : Bool := 0x80 ≤ b && b ≤ 0xBF

/-- Decode one scalar starting at lead byte `b1` with following bytes
`rest`; returns the decoded character (U+FFFD for an invalid maximal
subpart) and the bytes not yet consumed. -/
def utf8Step (b1 : Nat) (rest : List Nat) : Char × List Nat :=
  if b1 < 0x80 then
    (Char.ofNat b1, rest)
  else if 0xC2 ≤ b1 && b1 ≤ 0xDF then
    match rest with
    | b2 :: rest2 =>
      if isCont b2 then
        (Char.ofNat ((b1 % 0x20) * 0x40 + b2 % 0x40), rest2)
      else (replCh, rest)
    | [] => (replCh, [])
  else if 0xE0 ≤ b1 && b1 ≤ 0xEF then
    match rest with
    | b2 :: rest2 =>
      let b2ok :=
        if b1 = 0xE0 then 0xA0 ≤ b2 && b2 ≤ 0xBF
        else if b1 = 0xED then 0x80 ≤ b2 && b2 ≤ 0x9F
        else isCont b2
      if b2ok then
        match rest2 with
        | b3 :: rest3 =>
          if isCont b3 then
            (Char.ofNat ((b1 % 0x10) * 0x1000 + (b2 % 0x40) * 0x40 + b3 % 0x40),
             rest3)
          else (replCh, rest2)
        | [] => (replCh, [])
      else (replCh, rest)
    | [] => (replCh, [])
  else if 0xF0 ≤ b1 && b1 ≤ 0xF4 then
    match rest with
    | b2 :: rest2 =>
      let b2ok :=
        if b1 = 0xF0 then 0x90 ≤ b2 && b2 ≤ 0xBF
        else if b1 = 0xF4 then 0x80 ≤ b2 && b2 ≤ 0x8F
        else isCont b2
      if b2ok then
        match rest2 with
        | b3 :: rest3 =>
          if isCont b3 then
            match rest3 with
            | b4 :: rest4 =>
              if isCont b4 then
                (Char.ofNat ((b1 % 8) * 0x40000 + (b2 % 0x40) * 0x1000 +
                    (b3 % 0x40) * 0x40 + b4 % 0x40),
                 rest4)
              else (replCh, rest3)
            | [] => (replCh, [])
          else (replCh, rest2)
        | [] => (replCh, [])
      else (replCh, rest)
    | [] => (replCh, [])
  else
    (replCh, rest)

/-- Fuelled driver for the lossy decoder; fuel bounds the number of
emitted characters. -/
def utf8LossyGo : Nat → List Nat → List Char
  | 0, _ => []
  | _ + 1, [] => []
  | fuel + 1, b :: rest =>
    (utf8Step b rest).1 :: utf8LossyGo fuel (utf8Step b rest).2

/-- `String::from_utf8_lossy` on a byte list (each step consumes at
least one byte, so `l.length` steps always finish the input). -/
def utf8Lossy (l : List Nat) : String :=
  String.mk (utf8LossyGo l.length l)

/-! ### The stream reader (`launcher.rs::process_output`)

One loop iteration reads from the stream and reacts to the outcome; the
slot value the liveness check would observe is part of the iteration's
event, since the slot is mutated concurrently by the status poller.  A
run consumes a finite trace of such events. -/

/-- Outcome of one `reader.read(&mut buf)` call: `ok bytes` is
`Ok(bytes.length)` with those bytes in the buffer (so `ok []` is
`Ok(0)`), `wouldBlock` is `Err(WouldBlock)`, and `readErr` is any other
read error. -/
inductive ReadResult
  | ok (bytes : List Nat)
  | wouldBlock
  | readErr
deriving DecidableEq, Repr

/-- One iteration's environment: the read outcome and whether the
shared slot is occupied at the moment the liveness check (if reached)
inspects it. -/
structure ReaderEvent where
  read : ReadResult
  slotOccupied : Bool
deriving DecidableEq, Repr

/-- What one iteration of the reader loop did: the output-sink
invocations it made, whether it reached the liveness check, and whether
it ended the loop. -/
structure ReaderStep where
  sinkCalls : List String
  checkedLiveness : Bool
  terminated : Bool
deriving DecidableEq, Repr

/-- The body of the `process_output` loop, embedded from the source:
`Ok(n)` with `n > 0` decodes the chunk with `from_utf8_lossy`, invokes
the output handler and `continue`s; `Err(WouldBlock)` sleeps and
`continue`s; `Ok(0)` and any other read error fall through to the
`is_running` check, which breaks the loop exactly when the slot is
empty. -/
def readerStep (ev : ReaderEvent) : ReaderStep :=
  match ev.read with
  | .ok [] =>
    { sinkCalls := [], checkedLiveness := true, terminated := !ev.slotOccupied }
  | .ok (b :: bs) =>
    { sinkCalls := [utf8Lossy (b :: bs)], checkedLiveness := false,
      terminated := false }
  | .wouldBlock =>
    { sinkCalls := [], checkedLiveness := false, terminated := false }
  | .readErr =>
    { sinkCalls := [], checkedLiveness := true, terminated := !ev.slotOccupied }

/-- `launcher.rs::process_output` run over a finite event trace:
returns every output-sink invocation in order and whether the loop
terminated within the trace. -/
def process_output : List ReaderEvent → List String × Bool
  | [] => ([], false)
  | ev :: rest =>
    if (readerStep ev).terminated then ((readerStep ev).sinkCalls, true)
    else
      ((readerStep ev).sinkCalls ++ (process_output rest).1,
       (process_output rest).2)

/-! ### The status poller (`launcher.rs::process_status`)

Each iteration calls `wait_child` (`child.try_wait()` under the slot
lock, an error when the slot is empty); the loop ends on an exit status
or a wait error, and `forget_child` then clears the slot
unconditionally. -/

/-- A child's exit status: an exit code, or `none` for termination by
signal. -/
structure ExitStatus where
  code : Option Int
deriving DecidableEq, Repr

/-- Outcome of one `wait_child` call as seen by the poller loop:
`Ok(Some(status))`, `Ok(None)` (still running), or `Err` (a `try_wait`
error, or the slot already empty). -/
inductive WaitResult
  | exited (st : ExitStatus)
  | stillRunning
  | waitErr
deriving DecidableEq, Repr

/-- Whether a wait outcome keeps the poller looping. -/
def WaitResult.isStill : WaitResult → Bool
  | .stillRunning => true
  | _ => false

/-- Result of a terminated poller run: the status-sink invocations it
made and the shared slot after `forget_child`. -/
structure PollerResult where
  sinkCalls : List ExitStatus
  finalSlot : Option Child
deriving DecidableEq, Repr

/-- `launcher.rs::process_status` over a finite trace of `wait_child`
outcomes: `none` when the trace is exhausted with the process still
running, otherwise the completed run — on `Ok(Some(status))` the
handler is invoked with that status and the loop breaks, on `Err` the
loop breaks with no handler call, and in both cases `forget_child`
clears the slot. -/
def process_status : List WaitResult → Option PollerResult
  | [] => none
  | .exited st :: _ => some { sinkCalls := [st], finalSlot := none }
  | .waitErr :: _ => some { sinkCalls := [], finalSlot := none }
  | .stillRunning :: rest => process_status rest

/-! ### Helper lemmas -/

/-- Permissive decoding of a non-empty chunk yields non-empty text:
`utf8LossyGo` emits one character before recursing. -/
theorem utf8Lossy_cons_ne_empty (b : Nat) (bs : List Nat) :
    utf8Lossy (b :: bs) ≠ "" := by
  intro h
  have hd := congrArg String.data h
  simp only [utf8Lossy, List.length_cons, utf8LossyGo] at hd
  cases hd

/-- Every output-sink invocation made by one iteration of the reader
loop carries non-empty text. -/
theorem readerStep_sink_ne_empty (ev : ReaderEvent) (s : String)
    (h : s ∈ (readerStep ev).sinkCalls) : s ≠ "" := by
  rcases ev with ⟨rd, so⟩
  cases rd with
  | ok bytes =>
    cases bytes with
    | nil => simp [readerStep] at h
    | cons b bs =>
      simp only [readerStep, List.mem_singleton] at h
      subst h
      exact utf8Lossy_cons_ne_empty b bs
  | wouldBlock => simp [readerStep] at h
  | readErr => simp [readerStep] at h

/-! ### The claims -/

/-- Claim C1: the claim states that `start` invokes the elevation
helper exactly when the descriptor's `requires_elevation`
(`superuser`) flag is set.  The code violates this: `Launcher::new`
hardcodes `superuser: true` and never consults
`Program::need_superuser`, so this descriptor with the flag unset is
still launched through the elevation helper `pkexec` rather than as
`echo` with argument `hi`. -/
theorem C1_elevation_flag_ignored :
    (Program.need_superuser
        { id := "p1", command := "echo hi", superuser := false, input := none,
          args := [], env := [] }) = false ∧
    (start
        (Launcher.new
          { id := "p1", command := "echo hi", superuser := false, input := none,
            args := [], env := [] })
        none { spawnOk := true, stdinWriteOk := true, pid := 7 }).spawns =
      [{ program := SUDO_COMMAND, args := ["echo", "hi"], env := [] }] := by
  decide

/-- Claim C2 (counterexample): the claim states that a failed stdin
write makes `start` return a `StdinWriteFailed` error to its caller.
On this concrete input the source instead panics via
`.expect("Failed to write to stdin")`: the outcome is a panic, not a
returned error. -/
theorem C2_counterexample :
    (start { command := "cat", superuser := false, input := some "x", env := [] }
        none { spawnOk := true, stdinWriteOk := false, pid := 3 }).outcome =
      .panic "Failed to write to stdin" ∧
    (start { command := "cat", superuser := false, input := some "x", env := [] }
        none { spawnOk := true, stdinWriteOk := false, pid := 3 }).outcome ≠
      .error .stdinWriteFailed := by
  decide

/-- Claim C2 (amended): for every descriptor with a configured stdin
payload whose command line yields at least one token, if writing the
payload to the spawned child's stdin fails, `start` panics with
message "Failed to write to stdin" instead of returning an error; the
child was spawned but the shared slot stays empty. -/
theorem C2_stdin_write_panics (l : Launcher) (w : StartWorld)
    (hin : l.input.isSome = true)
    (hspawn : w.spawnOk = true)
    (hwrite : w.stdinWriteOk = false)
    (htok : (shlexSplit l.command).getD [l.command] ≠ []) :
    (start l none w).outcome = .panic "Failed to write to stdin" ∧
    (start l none w).slot = none ∧
    (start l none w).spawns.length = 1 := by
  rcases hp : (shlexSplit l.command).getD [l.command] with _ | ⟨p0, restParts⟩
  · exact absurd hp htok
  · rcases hi : l.input with _ | payload
    · rw [hi] at hin; cases hin
    · simp [start, is_running, hp, hi, hspawn, hwrite]

/-- Claim C2 (amended) witness: the concrete descriptor with stdin
payload "x" whose stdin write fails makes `start` panic, spawn once,
and leave the slot empty. -/
theorem C2_witness :
    (start { command := "cat", superuser := false, input := some "x", env := [] }
        none { spawnOk := true, stdinWriteOk := false, pid := 3 }).outcome =
      .panic "Failed to write to stdin" ∧
    (start { command := "cat", superuser := false, input := some "x", env := [] }
        none { spawnOk := true, stdinWriteOk := false, pid := 3 }).slot = none ∧
    (start { command := "cat", superuser := false, input := some "x", env := [] }
        none { spawnOk := true, stdinWriteOk := false, pid := 3 }).spawns.length =
      1 :=
  C2_stdin_write_panics
    { command := "cat", superuser := false, input := some "x", env := [] }
    { spawnOk := true, stdinWriteOk := false, pid := 3 }
    rfl rfl rfl (by decide)

/-- Claim C3: for every command line that shell-word-splits to zero
tokens, `start` on an empty slot fails with `EmptyCommand`, the slot
stays empty, and no spawn is attempted. -/
theorem C3_empty_command (l : Launcher) (w : StartWorld)
    (h : shlexSplit l.command = some []) :
    start l none w =
      { outcome := .error .emptyCommand, slot := none, spawns := [] } := by
  simp [start, is_running, h]

/-- Claim C3 witness: the blank command `" "` splits to zero tokens
and `start` fails with `EmptyCommand` without spawning. -/
theorem C3_witness :
    shlexSplit " " = some [] ∧
    start { command := " ", superuser := true, input := none, env := [] } none
        { spawnOk := true, stdinWriteOk := true, pid := 0 } =
      { outcome := .error .emptyCommand, slot := none, spawns := [] } :=
  ⟨by decide, C3_empty_command _ _ (by decide)⟩

/-- Claim C4: whenever the shared slot already holds a live child,
`start` fails with `AlreadyRunning` and changes nothing: the slot
still holds the same handle, no spawn is attempted, and `is_running`
remains true. -/
theorem C4_already_running (l : Launcher) (c : Child) (w : StartWorld) :
    start l (some c) w =
      { outcome := .error .alreadyRunning, slot := some c, spawns := [] } ∧
    is_running (some c) = true :=
  ⟨rfl, rfl⟩

/-- Claim C5: every terminating run of the status poller ends with the
shared slot cleared; when the first decisive wait outcome is an exit
status, the status sink is invoked exactly once with that verbatim
status, and when it is a wait error the loop ends with no sink call
(slot cleared as well). -/
theorem C5_poller_clears_slot (trace : List WaitResult) (r : PollerResult)
    (h : process_status trace = some r) :
    r.finalSlot = none ∧
    ((∃ st, trace.find? (fun x => !x.isStill) = some (.exited st) ∧
        r.sinkCalls = [st]) ∨
     (trace.find? (fun x => !x.isStill) = some .waitErr ∧ r.sinkCalls = [])) := by
  induction trace with
  | nil => cases h
  | cons wr rest ih =>
    cases wr with
    | exited st =>
      rw [process_status] at h
      cases h
      exact ⟨rfl, .inl ⟨st, by simp [WaitResult.isStill], rfl⟩⟩
    | stillRunning =>
      rw [process_status] at h
      have := ih h
      simpa [List.find?, WaitResult.isStill] using this
    | waitErr =>
      rw [process_status] at h
      cases h
      exact ⟨rfl, .inr ⟨by simp [WaitResult.isStill], rfl⟩⟩

/-- Claim C5 witness: a run that observes "still running" once and
then exit code 0 invokes the sink once with that status and clears the
slot. -/
theorem C5_witness :
    process_status [.stillRunning, .exited { code := some 0 }] =
      some { sinkCalls := [{ code := some 0 }], finalSlot := none } ∧
    ({ sinkCalls := [{ code := some 0 }], finalSlot := none } :
        PollerResult).finalSlot = none ∧
    ((∃ st,
        ([WaitResult.stillRunning,
          WaitResult.exited { code := some 0 }].find? (fun x => !x.isStill)) =
          some (.exited st) ∧
        ({ sinkCalls := [{ code := some 0 }], finalSlot := none } :
            PollerResult).sinkCalls = [st]) ∨
     (([WaitResult.stillRunning,
         WaitResult.exited { code := some 0 }].find? (fun x => !x.isStill)) =
         some .waitErr ∧
      ({ sinkCalls := [{ code := some 0 }], finalSlot := none } :
          PollerResult).sinkCalls = [])) :=
  ⟨by decide, C5_poller_clears_slot _ _ (by decide)⟩

/-- Claim C6: in every iteration of the reader loop, a read of `n > 0`
bytes invokes the output sink with the permissively decoded text and
continues without a liveness check; a zero-byte read or a
non-would-block read error reaches the liveness check, and the
iteration terminates the loop exactly when that check finds the slot
empty; a would-block read neither checks liveness nor terminates. -/
theorem C6_reader_step (ev : ReaderEvent) :
    (∀ b bs, ev.read = .ok (b :: bs) →
      readerStep ev =
        { sinkCalls := [utf8Lossy (b :: bs)], checkedLiveness := false,
          terminated := false }) ∧
    ((ev.read = .ok [] ∨ ev.read = .readErr) →
      (readerStep ev).checkedLiveness = true ∧
      ((readerStep ev).terminated = true ↔ ev.slotOccupied = false)) ∧
    (ev.read = .wouldBlock →
      readerStep ev =
        { sinkCalls := [], checkedLiveness := false, terminated := false }) ∧
    ((readerStep ev).terminated = true ↔
      (readerStep ev).checkedLiveness = true ∧ ev.slotOccupied = false) := by
  rcases ev with ⟨rd, so⟩
  cases rd with
  | ok bytes => cases bytes <;> cases so <;> simp [readerStep]
  | wouldBlock => cases so <;> simp [readerStep]
  | readErr => cases so <;> simp [readerStep]

/-- Claim C6 witness: an iteration that reads the two bytes "hi" while
the slot is occupied invokes the sink with the decoded text and
neither checks liveness nor terminates. -/
theorem C6_witness :
    readerStep { read := .ok [104, 105], slotOccupied := true } =
      { sinkCalls := [utf8Lossy [104, 105]], checkedLiveness := false,
        terminated := false } :=
  (C6_reader_step { read := .ok [104, 105], slotOccupied := true }).1 104 [105] rfl

/-- Claim C7: with a live child, when the interrupt-sending command
runs, exit code 0 makes the termination primitive succeed (the
synchronous `stop` then returns `Ok` or the wait error, never
`TerminationFailed`), while any non-zero exit code — and a signal-killed
kill command — is returned to the synchronous `stop` caller as
`TerminationFailed` carrying that code. -/
theorem C7_termination_primitive (c : Child) (su : Bool) (w : StopWorld)
    (hrun : w.killRunOk = true) :
    (w.killExitCode = some 0 →
      (stop (some c) su false w).result =
        (if w.waitOk then Except.ok () else Except.error .waitFailed)) ∧
    (∀ code : Int, w.killExitCode = some code → code ≠ 0 →
      (stop (some c) su false w).result =
        Except.error (.terminationFailed (some code))) ∧
    (w.killExitCode = none →
      (stop (some c) su false w).result =
        Except.error (.terminationFailed none)) := by
  refine ⟨fun h0 => ?_, fun code hc hne => ?_, fun hn => ?_⟩
  · cases hw : w.waitOk <;> simp [stop, hrun, h0, hw]
  · simp [stop, hrun, hc, hne]
  · simp [stop, hrun, hn]

/-- Claim C7 witness: a kill command that exits with code 3 makes the
synchronous `stop` return `TerminationFailed` with code 3. -/
theorem C7_witness :
    (stop (some { call := { program := "x", args := [], env := [] }, pid := 5 })
        true false
        { killRunOk := true, killExitCode := some 3, waitOk := true }).result =
      Except.error (.terminationFailed (some 3)) :=
  (C7_termination_primitive
      { call := { program := "x", args := [], env := [] }, pid := 5 }
      true { killRunOk := true, killExitCode := some 3, waitOk := true }
      rfl).2.1 3 rfl (by decide)

/-- Claim C8: whenever the shared slot is empty, `stop` (sync or
async, elevated or not) returns success, runs no interrupt-sending
command, and leaves the slot empty. -/
theorem C8_stop_noop (su isAsync : Bool) (w : StopWorld) :
    stop none su isAsync w = { result := .ok (), slot := none, kills := [] } :=
  rfl

/-- Claim C9: in every run of the stream reader, the output sink is
never invoked with a zero-length chunk: every delivered string is
non-empty. -/
theorem C9_sink_nonempty (evs : List ReaderEvent) (s : String)
    (h : s ∈ (process_output evs).1) : s ≠ "" := by
  induction evs with
  | nil => simp [process_output] at h
  | cons ev rest ih =>
    rw [process_output] at h
    by_cases ht : (readerStep ev).terminated = true
    · rw [if_pos ht] at h
      exact readerStep_sink_ne_empty ev s h
    · rw [if_neg ht] at h
      rcases List.mem_append.mp h with hm | hm
      · exact readerStep_sink_ne_empty ev s hm
      · exact ih hm

/-- Claim C9 witness: a run that reads the single byte `h` delivers
the non-empty chunk "h" to the sink. -/
theorem C9_witness :
    "h" ∈ (process_output [{ read := .ok [104], slotOccupied := true }]).1 ∧
    "h" ≠ "" :=
  ⟨by decide, C9_sink_nonempty [{ read := .ok [104], slotOccupied := true }] "h"
    (by decide)⟩

/-- Claim C10: when shell-word splitting of the command line fails
outright (e.g. an unclosed quote), `start` does not fail with
`EmptyCommand`: the entire raw command string becomes the single
token, so it is the program spawned (or, under elevation, the sole
argument handed to the elevation helper). -/
theorem C10_split_failure_fallback (l : Launcher) (w : StartWorld)
    (h : shlexSplit l.command = none) :
    (start l none w).outcome ≠ .error .emptyCommand ∧
    (start l none w).spawns =
      [if l.superuser then
        { program := SUDO_COMMAND, args := [l.command], env := l.env }
      else
        { program := l.command, args := [], env := l.env }] := by
  cases hsu : l.superuser <;>
    rcases hi : l.input with _ | payload <;>
      cases hsp : w.spawnOk <;>
        cases hwr : w.stdinWriteOk <;>
          simp [start, is_running, h, hsu, hi, hsp, hwr]

/-- Claim C10 witness: a command with an unclosed double quote fails
shell-word splitting; `start` under elevation does not report
`EmptyCommand` and hands the raw string to `pkexec` as the sole
argument. -/
theorem C10_witness :
    shlexSplit "\"abc" = none ∧
    ((start { command := "\"abc", superuser := true, input := none, env := [] }
        none { spawnOk := true, stdinWriteOk := true, pid := 1 }).outcome ≠
      .error .emptyCommand ∧
    (start { command := "\"abc", superuser := true, input := none, env := [] }
        none { spawnOk := true, stdinWriteOk := true, pid := 1 }).spawns =
      [if ({ command := "\"abc", superuser := true, input := none, env := [] } :
          Launcher).superuser then
        { program := SUDO_COMMAND, args := ["\"abc"], env := [] }
      else
        { program := "\"abc", args := [], env := [] }]) :=
  ⟨by decide, C10_split_failure_fallback _ _ (by decide)⟩

end ProgramTray
